import Mathlib

/-!
# Verification of the oraculo retrieval-augmented-generation core

A shallow embedding, in Lean 4, of the core logic of the `oraculo`
repository (document chunking, embedding-based retrieval, context-bounded
prompt assembly and the query orchestrator), together with theorems that
settle the specification claims about that logic.

Python strings are modelled as `List Char`; Python's exception channel of
the repository's fallible calls is modelled with `Except`; the external
collaborators (the sentence-transformers encoder, the ChromaDB collection
and the LLM runtimes) are modelled as explicit oracle functions.  Loops of
the source without a structural termination argument are modelled with an
explicit fuel parameter: a returned flag records whether the loop finished
(`true`) or ran out of fuel (`false`); a loop that returns `false` for
every fuel value never terminates.
-/

namespace Oraculo

/-- Python strings are modelled as lists of characters. -/
abbrev Str := List Char

/-- ASCII model of Python's `\s` class (used by `re.sub(r'\s+', ' ', ...)`)
and of `str.strip()` on the texts this code handles. -/
def pyIsSpace (c : Char) : Bool :=
  c = ' ' || c = '\t' || c = '\n' || c = '\r' || c = Char.ofNat 11 || c = Char.ofNat 12

/-- Helper for `clean_text`: collapse each maximal whitespace run to a single
space.  The boolean records whether the previous character was whitespace. -/
def collapseWsAux : Bool → Str → Str
  | _, [] => []
  | prevSpace, c :: rest =>
    if pyIsSpace c then
      if prevSpace then collapseWsAux true rest
      else ' ' :: collapseWsAux true rest
    else c :: collapseWsAux false rest

/-- Python `str.strip()`: drop leading and trailing whitespace. -/
def stripChars (l : Str) : Str :=
  ((l.dropWhile pyIsSpace).reverse.dropWhile pyIsSpace).reverse

/-- `TextProcessor.clean_text`: `re.sub(r'\s+', ' ', text)` followed by
`str.strip()`. -/
def cleanText (l : Str) : Str :=
  stripChars (collapseWsAux false l)

/-- Python slice/`rfind` index normalisation for a string of length `n`:
a negative index counts from the end; the result is clamped to `[0, n]`. -/
def effIdx (n : Nat) (i : Int) : Nat :=
  (min (max (if i < 0 then i + n else i) 0) (n : Int)).toNat

/-- Python slice `t[i:j]` (character slicing with negative-index wraparound
and clamping). -/
def pySlice (t : Str) (i j : Int) : Str :=
  (t.drop (effIdx t.length i)).take (effIdx t.length j - effIdx t.length i)

/-- Highest index `k` with `a ≤ k < a + len` whose character is a space,
searching downward. -/
def rfindSpaceFrom (t : Str) (a : Nat) : Nat → Option Nat
  | 0 => none
  | len + 1 =>
    if t.get? (a + len) = some ' ' then some (a + len)
    else rfindSpaceFrom t a len

/-- Python `t.rfind(' ', i, j)`: the highest index of a space inside the
slice bounds (normalised as in slicing), or `-1` when there is none. -/
def rfindSpace (t : Str) (i j : Int) : Int :=
  ((rfindSpaceFrom t (effIdx t.length i) (effIdx t.length j - effIdx t.length i)).map
    (fun k => (k : Int))).getD (-1)

/-! ## The chunker: `modules/text_processor.py` -/

/-- Chunk metadata, an association list modelling the Python metadata dict
(the code only ever consults the `filename` and `path` keys). -/
abbrev Meta := List (Str × Str)

/-- `TextProcessor`: the chunker configuration stored by `__init__`. -/
structure TextProcessor where
  chunk_size : Nat
  chunk_overlap : Nat
deriving Repr, DecidableEq

/-- `TextProcessor.__init__(chunk_size, chunk_overlap)`.  The `Except`
channel models Python exceptions; the constructor body only stores the two
fields and contains no `raise`, so the result is always `Except.ok`. -/
def TextProcessor.init (chunk_size chunk_overlap : Nat) : Except Str TextProcessor :=
  Except.ok ⟨chunk_size, chunk_overlap⟩

/-- One chunk produced by `create_chunks`. -/
structure Chunk where
  text : Str
  metadata : Meta
  chunk_index : Nat
deriving Repr, DecidableEq

/-- The window end computed by one iteration of the `create_chunks` loop:
`end = start + chunk_size`, snapped back to the last space found by
`text.rfind(' ', start, end)` when `end < len(text)` and that space index
is greater than `start`. -/
def chunkEnd (tp : TextProcessor) (t : Str) (start : Int) : Int :=
  if start + (tp.chunk_size : Int) < (t.length : Int) then
    if rfindSpace t start (start + tp.chunk_size) > start then
      rfindSpace t start (start + tp.chunk_size)
    else start + tp.chunk_size
  else start + tp.chunk_size

/-- `text[start:end].strip()` for one iteration of the loop. -/
def chunkText (tp : TextProcessor) (t : Str) (start : Int) : Str :=
  stripChars (pySlice t start (chunkEnd tp t start))

/-- `start = end - self.chunk_overlap`, the next window start. -/
def nextStart (tp : TextProcessor) (t : Str) (start : Int) : Int :=
  chunkEnd tp t start - (tp.chunk_overlap : Int)

/-- The `while start < len(text)` loop of `TextProcessor.create_chunks`,
with an explicit fuel.  The boolean result is `true` when the loop exited
by its own condition or the `break` after the start update, `false` when
the fuel ran out (for every fuel, on a divergent input).  `start` is an
`Int` because Python's `start = end - self.chunk_overlap` can go
negative. -/
def createChunksLoop (tp : TextProcessor) (t : Str) (md : Meta) :
    Nat → Int → Nat → List Chunk → List Chunk × Bool
  | 0, _, _, acc => (acc, false)
  | fuel + 1, start, chunk_index, acc =>
    if start < (t.length : Int) then
      if (t.length : Int) ≤ nextStart tp t start then
        ((if chunkText tp t start = [] then acc
          else acc ++ [⟨chunkText tp t start, md, chunk_index⟩]), true)
      else
        createChunksLoop tp t md fuel (nextStart tp t start)
          (if chunkText tp t start = [] then chunk_index else chunk_index + 1)
          (if chunkText tp t start = [] then acc
           else acc ++ [⟨chunkText tp t start, md, chunk_index⟩])
    else (acc, true)

/-- `TextProcessor.create_chunks(text, metadata)`: clean the text, emit a
single chunk when it fits in `chunk_size`, otherwise run the sliding-window
loop.  `metadata or {}` is modelled by `Option.getD`. -/
def TextProcessor.create_chunks (tp : TextProcessor) (text : Str)
    (metadata : Option Meta) (fuel : Nat) : List Chunk × Bool :=
  let t := cleanText text
  if t.length ≤ tp.chunk_size then
    ([⟨t, metadata.getD [], 0⟩], true)
  else
    createChunksLoop tp t (metadata.getD []) fuel 0 0 []

/-- A document as produced by `DocumentLoader.load_all_documents` (a dict
with `filename`, `path` and `content`). -/
structure Document where
  filename : Str
  path : Str
  content : Str
deriving Repr, DecidableEq

/-- `TextProcessor.process_documents`: flat-map `create_chunks` over the
documents, tagging each chunk with its source document's metadata.  The
boolean is `true` when every per-document chunking finished within `fuel`. -/
def TextProcessor.process_documents (tp : TextProcessor) (documents : List Document)
    (fuel : Nat) : List Chunk × Bool :=
  documents.foldl
    (fun st doc =>
      let md : Meta := [(("filename").data, doc.filename), (("path").data, doc.path)]
      let r := tp.create_chunks doc.content (some md) fuel
      (st.1 ++ r.1, st.2 && r.2))
    ([], true)

/-! ## The embedding generator: `modules/embedding_generator.py`

The sentence-transformers model is an external collaborator; its `encode`
method is modelled as an oracle function whose `Except` channel models a
raised exception.  Embedding vectors are value sequences; their float
entries are modelled as rationals. -/

/-- An embedding vector. -/
abbrev Vec := List ℚ

/-- `EmbeddingGenerator.generate_embedding`: calls `model.encode`; on any
exception it logs and returns the degenerate empty vector `np.array([])`. -/
def generate_embedding (encode : Str → Except Str Vec) (text : Str) : Vec :=
  match encode text with
  | .ok e => e
  | .error _ => []

/-- `EmbeddingGenerator.generate_embeddings_batch`: calls `model.encode` on
the whole batch; on any exception it logs and returns `[]` — the failure is
caught inside this method and never re-raised. -/
def generate_embeddings_batch (encode : List Str → Except Str (List Vec))
    (texts : List Str) : List Vec :=
  match encode texts with
  | .ok es => es
  | .error _ => []

/-! ## The vector store: `modules/vector_store.py`

The ChromaDB collection is an external collaborator.  Its persisted
contents are modelled as a list of indexed entries; its `query` method as
an oracle returning the raw result dict. -/

/-- One entry of the Index, as constructed by `add_documents`. -/
structure IndexedEntry where
  id : Str
  text : Str
  filename : Str
  chunk_index : Nat
  embedding : Vec
deriving Repr, DecidableEq

/-- `VectorStore.add_documents`: builds ids `doc_<i>`, texts and metadata
rows positionally from the chunks, pairs them with the embeddings, and
writes them to the collection (the batching in groups of 100 appends the
same rows; the external collection's reaction to lists of mismatched
lengths is outside this model — the zip keeps the positional pairing the
code constructs). -/
def VectorStore.add_documents (store : List IndexedEntry) (chunks : List Chunk)
    (embeddings : List Vec) : List IndexedEntry :=
  store ++ (chunks.zip embeddings).enum.map (fun p =>
    ⟨("doc_").data ++ (toString p.1).data,
     p.2.1.text,
     (List.lookup ("filename").data p.2.1.metadata).getD [],
     p.2.1.chunk_index,
     p.2.2⟩)

/-- `VectorStore.clear_collection`: deletes and recreates the collection,
leaving it empty. -/
def VectorStore.clear_collection (_store : List IndexedEntry) : List IndexedEntry :=
  []

/-- `VectorStore.get_collection_stats` reports `collection.count()` as
`total_documents`; the count of the modelled collection is its length. -/
def VectorStore.count (store : List IndexedEntry) : Nat :=
  store.length

/-- The raw result dict of `collection.query`: per-query lists of
documents, metadata dicts, and (when the `'distances'` key is present)
distances. -/
structure ChromaQueryResult where
  documents : List (List Str)
  metadatas : List (List Meta)
  distances : Option (List (List ℚ))

/-- The `collection.query` oracle: embedding and result count in, raw
result dict out; `Except.error` models a raised exception. -/
abbrev CQOracle := Vec → Nat → Except Str ChromaQueryResult

/-- One formatted retrieval result built by `VectorStore.search`. -/
structure RDoc where
  text : Str
  metadata : Meta
  distance : Option ℚ
deriving DecidableEq

/-- The formatting loop of `VectorStore.search`: for each index `i` below
`len(results['documents'][0])` it reads `documents[0][i]`,
`metadatas[0][i]` and (when present) `distances[0][i]`.  Reading past the
end of a list raises `IndexError` (result `none`), which the caller's
`except` turns into `[]`.  The positional recursion consumes the three
lists in step, which is what the indexed loop does. -/
def searchRowsAux : List Str → List Meta → Option (List ℚ) → Option (List RDoc)
  | [], _, _ => some []
  | t :: ts, m :: ms, none => (searchRowsAux ts ms none).map (fun rs => ⟨t, m, none⟩ :: rs)
  | t :: ts, m :: ms, some (d :: ds) =>
    (searchRowsAux ts ms (some ds)).map (fun rs => ⟨t, m, some d⟩ :: rs)
  | _ :: _, [], _ => none
  | _ :: _, _ :: _, some [] => none

/-- The body of `VectorStore.search` after a successful backend query with
a non-empty `documents` list: access `metadatas[0]` and `distances[0]`
(each an `IndexError`, hence `none`, when absent while the loop runs) and
format the rows. -/
def searchTop (docs0 : List Str) (metadatas : List (List Meta))
    (distances : Option (List (List ℚ))) : Option (List RDoc) :=
  match docs0 with
  | [] => some []
  | _ :: _ =>
    match metadatas with
    | [] => none
    | m0 :: _ =>
      match distances with
      | none => searchRowsAux docs0 m0 none
      | some [] => none
      | some (ds0 :: _) => searchRowsAux docs0 m0 (some ds0)

/-- `VectorStore.search`: query the collection and format the results; the
whole body is wrapped in `try/except` and ANY exception — including a
failing backend query — is logged and turned into the empty list. -/
def VectorStore.search (cq : CQOracle) (query_embedding : Vec) (n_results : Nat) :
    List RDoc :=
  match cq query_embedding n_results with
  | .error _ => []
  | .ok results =>
    match results.documents with
    | [] => []
    | docs0 :: _ =>
      match searchTop docs0 results.metadatas results.distances with
      | some rows => rows
      | none => []

/-! ## The LLM layer: `modules/llm.py`

The model runtimes are external collaborators, modelled as completion
oracles; both `generate` implementations catch every exception and return
a fixed apologetic fallback string. -/

/-- The fallback string returned by `LocalLLM.generate` and
`GPT4AllLLM.generate` when the completion call raises. -/
def llmFallback : Str := ("Desculpe, ocorreu um erro ao gerar a resposta.").data

/-- `generate` (of `LocalLLM` and `GPT4AllLLM`): on success strip the
completion, on any exception return the fixed fallback string. -/
def llmGenerate (complete : Str → Except Str Str) (prompt : Str) : Str :=
  match complete prompt with
  | .ok t => stripChars t
  | .error _ => llmFallback

/-- Python `sep.join(parts)`. -/
def pyJoin (sep : Str) : List Str → Str
  | [] => []
  | [x] => x
  | x :: y :: xs => x ++ sep ++ pyJoin sep (y :: xs)

/-- `doc.get('metadata', {}).get('filename', 'Documento')` as used by the
prompt assemblers. -/
def promptFilename (d : RDoc) : Str :=
  (List.lookup ("filename").data d.metadata).getD (("Documento").data)

/-- One step of the `docs_by_file` grouping dict of
`GPT4AllLLM.create_prompt_with_context`: append the text under its
filename key, inserting the key at the end on first sight (Python dicts
preserve insertion order). -/
def addToGroups (gs : List (Str × List Str)) (f : Str) (t : Str) : List (Str × List Str) :=
  if (gs.lookup f).isSome then
    gs.map (fun g => if g.1 = f then (g.1, g.2 ++ [t]) else g)
  else gs ++ [(f, [t])]

/-- The `docs_by_file` dict: group the retrieval results' texts by
filename, first-seen key order. -/
def groupByFile (docs : List RDoc) : List (Str × List Str) :=
  docs.foldl (fun gs d => addToGroups gs (promptFilename d) d.text) []

/-- The per-group truncation of `GPT4AllLLM.create_prompt_with_context`:
`combined_text[:2500] + "..."` when the combined text exceeds 2500
characters. -/
def truncateCtx (s : Str) : Str :=
  if 2500 < s.length then s.take 2500 ++ ("...").data else s

/-- One rendered group: `=== <filename> ===` header plus the (possibly
truncated) texts of the group joined by blank lines. -/
def contextPart (g : Str × List Str) : Str :=
  ("=== ").data ++ g.1 ++ (" ===\n").data ++ truncateCtx (pyJoin ("\n\n").data g.2)

/-- The `context` local of `GPT4AllLLM.create_prompt_with_context`:
rendered groups joined by blank lines. -/
def gpt4all_context (context_documents : List RDoc) : Str :=
  pyJoin ("\n\n").data ((groupByFile context_documents).map contextPart)

/-- The instruction template of `GPT4AllLLM.create_prompt_with_context`,
part before the interpolated context. -/
def gpt4allTemplatePre : Str :=
  ("Você é um assistente técnico PRECISO. Sua função é responder baseado EXCLUSIVAMENTE no documento fornecido.\n\nDOCUMENTO:\n").data

/-- The instruction template of `GPT4AllLLM.create_prompt_with_context`,
part between the interpolated context and the question. -/
def gpt4allTemplateMid : Str :=
  ("\n\nINSTRUÇÕES CRÍTICAS:\n1. Leia o documento COM ATENÇÃO antes de responder\n2. Use APENAS informações EXPLÍCITAS do documento\n3. NUNCA invente, interprete ou assuma informações que não estão escritas\n4. CITE trechos literais do documento usando aspas quando possível\n5. Se o documento contradiz a premissa da pergunta, CORRIJA o usuário\n6. Seja ESPECÍFICO: mencione itens, números, requisitos exatos\n\nEXEMPLOS DO QUE NÃO FAZER:\n❌ \"Sim, está correto\" (quando o documento diz o contrário)\n❌ \"Ajuda a garantir isolamento\" (se o documento não menciona isso)\n❌ Confirmar práticas que o documento não valida\n\nEXEMPLO DO QUE FAZER:\n✓ \"Não, segundo o item 4 do documento: '[citação literal]'\"\n✓ \"O documento especifica que deve-se...\"\n✓ \"Sua abordagem difere do recomendado. O documento indica...\"\n\nPergunta: ").data

/-- The instruction template of `GPT4AllLLM.create_prompt_with_context`,
part after the question. -/
def gpt4allTemplatePost : Str :=
  ("\n\nResposta (seja PRECISO e LITERAL):").data

/-- `GPT4AllLLM.create_prompt_with_context`: the grouped, truncated context
interpolated into the instruction template. -/
def GPT4AllLLM.create_prompt_with_context (question : Str)
    (context_documents : List RDoc) : Str :=
  gpt4allTemplatePre ++ gpt4all_context context_documents ++ gpt4allTemplateMid
    ++ question ++ gpt4allTemplatePost

/-- One `[Fonte <i>: <filename>]` block of
`LocalLLM.create_prompt_with_context` (texts are neither grouped nor
truncated there). -/
def localPart (i : Nat) (d : RDoc) : Str :=
  ("[Fonte ").data ++ (toString i).data ++ (": ").data ++ promptFilename d
    ++ ("]\n").data ++ d.text ++ ("\n").data

/-- `enumerate(context_documents, 1)` over the parts of
`LocalLLM.create_prompt_with_context`. -/
def localPartsFrom (i : Nat) : List RDoc → List Str
  | [] => []
  | d :: ds => localPart i d :: localPartsFrom (i + 1) ds

/-- The `context` local of `LocalLLM.create_prompt_with_context`: the
enumerated source blocks joined by newlines — no grouping, no truncation. -/
def localllm_context (context_documents : List RDoc) : Str :=
  pyJoin ("\n").data (localPartsFrom 1 context_documents)

/-- The instruction template of `LocalLLM.create_prompt_with_context`,
part before the interpolated context. -/
def localTemplatePre : Str :=
  ("<s>[INST] <<SYS>>\nVocê é um assistente inteligente chamado Oráculo. Sua função é responder perguntas com base nos documentos fornecidos.\nUse apenas as informações dos documentos para responder. Se não souber a resposta, diga que não encontrou a informação.\nSeja claro, preciso e objetivo. Sempre cite a fonte quando possível.\n<</SYS>>\n\nDocumentos de referência:\n\n").data

/-- The instruction template of `LocalLLM.create_prompt_with_context`,
part between the context and the question. -/
def localTemplateMid : Str := ("\n\nPergunta: ").data

/-- The instruction template of `LocalLLM.create_prompt_with_context`,
part after the question. -/
def localTemplatePost : Str := ("\n\nResposta: [/INST]").data

/-- `LocalLLM.create_prompt_with_context`. -/
def LocalLLM.create_prompt_with_context (question : Str)
    (context_documents : List RDoc) : Str :=
  localTemplatePre ++ localllm_context context_documents ++ localTemplateMid
    ++ question ++ localTemplatePost

/-! ## The orchestrator: `modules/oracle_system.py` -/

/-- The fixed "not indexed" sentinel of `OracleSystem.query`. -/
def notIndexedMsg : Str :=
  ("[ERRO] Nenhum documento indexado. Execute index_documents() primeiro.").data

/-- The fixed "no relevant match" sentinel of `OracleSystem.query`. -/
def noRelevantMsg : Str :=
  ("[ERRO] Nao encontrei documentos relevantes para sua pergunta.").data

/-- The header of the appended sources block. -/
def sourcesHeader : Str := ("\n\n[FONTES CONSULTADAS]\n").data

/-- `doc.get('metadata', {}).get('filename', 'Desconhecido')` as used by
the sources block of `OracleSystem.query`. -/
def queryFilename (d : RDoc) : Str :=
  (List.lookup ("filename").data d.metadata).getD (("Desconhecido").data)

/-- The sources loop of `OracleSystem.query`: append `  - <filename>` for
each retrieval result whose filename was not seen before (`seen_files` is
a set; only membership is used, so it is modelled as the list of names
seen so far). -/
def sourcesLoop : List RDoc → List Str → Str
  | [], _ => []
  | d :: ds, seen =>
    let filename := queryFilename d
    if filename ∈ seen then sourcesLoop ds seen
    else (("  - ").data ++ filename ++ ("\n").data) ++ sourcesLoop ds (filename :: seen)

/-- Observable outcome of one `OracleSystem.query` call: the returned
answer and how many times the Embedding Service and the Generation Service
were invoked. -/
structure QueryCall where
  answer : Str
  embed_calls : Nat
  generate_calls : Nat
deriving DecidableEq

/-- `OracleSystem.query(question, n_results, show_sources)` over the
current Index contents and the service oracles (`encode` is the Embedding
Service, `cq` the collection query, `complete` the Generation Service,
`mkPrompt` the active LLM's `create_prompt_with_context`).  The call
counters record which services the taken path invokes. -/
def OracleSystem.query (entries : List IndexedEntry)
    (encode : Str → Except Str Vec) (cq : CQOracle)
    (complete : Str → Except Str Str) (mkPrompt : Str → List RDoc → Str)
    (question : Str) (n_results : Nat) (show_sources : Bool) : QueryCall :=
  if (VectorStore.count entries) = 0 then
    ⟨notIndexedMsg, 0, 0⟩
  else
    let question_embedding := generate_embedding encode question
    let relevant_docs := VectorStore.search cq question_embedding n_results
    if relevant_docs = [] then ⟨noRelevantMsg, 1, 0⟩
    else
      let prompt := mkPrompt question relevant_docs
      let response := llmGenerate complete prompt
      let answer :=
        if show_sources then response ++ sourcesHeader ++ sourcesLoop relevant_docs []
        else response
      ⟨answer, 1, 1⟩

/-- How one `index_documents` run ended (all three are normal returns; the
code raises nothing on these paths). -/
inductive IndexOutcome where
  | skipped : IndexOutcome
  | noDocuments : IndexOutcome
  | completed : List Chunk → List Vec → IndexOutcome
deriving DecidableEq

/-- `OracleSystem.index_documents(force_reindex)` over the current Index
contents, the extractor's result (`documents`), and the batch-encoding
oracle.  The orchestrator constructs `TextProcessor(chunk_size=500,
chunk_overlap=50)`.  `none` models a run that never returns because the
chunker loops (fuel exhausted); `completed chunks embeddings` records the
two positionally-aligned lists handed to `add_documents`. -/
def OracleSystem.index_documents (entries : List IndexedEntry)
    (documents : List Document) (encode : List Str → Except Str (List Vec))
    (force_reindex : Bool) (fuel : Nat) : Option (List IndexedEntry × IndexOutcome) :=
  if 0 < VectorStore.count entries ∧ force_reindex = false then
    some (entries, .skipped)
  else
    let entries1 := if force_reindex then VectorStore.clear_collection entries else entries
    if documents = [] then some (entries1, .noDocuments)
    else
      match (TextProcessor.mk 500 50).process_documents documents fuel with
      | (_, false) => none
      | (chunks, true) =>
        let texts := chunks.map (fun c => c.text)
        let embeddings := generate_embeddings_batch encode texts
        some (VectorStore.add_documents entries1 chunks embeddings,
              .completed chunks embeddings)

/-- Specification-side first-seen deduplication: keep each name's first
occurrence, in order.  Used to state what the sources loop computes. -/
def dedupFirstSeen : List Str → List Str
  | [] => []
  | f :: fs => f :: dedupFirstSeen (fs.filter (fun g => g ≠ f))
termination_by l => l.length
decreasing_by simp only [List.length_cons]; exact Nat.lt_succ_of_le (List.length_filter_le _ _)

/-- Rendering of a deduplicated name list as the sources block body. -/
def renderSources (l : List Str) : Str :=
  (l.map (fun f => ("  - ").data ++ f ++ ("\n").data)).flatten

/-! # Helper lemmas -/

theorem effIdx_le (n : Nat) (i : Int) : effIdx n i ≤ n := by
  unfold effIdx
  split <;> omega

theorem effIdx_int (n : Nat) (i : Int) :
    (effIdx n i : Int) = min (max (if i < 0 then i + n else i) 0) (n : Int) := by
  unfold effIdx
  split <;> omega

theorem length_pySlice (t : Str) (i j : Int) :
    (pySlice t i j).length = effIdx t.length j - effIdx t.length i := by
  unfold pySlice
  rw [List.length_take, List.length_drop]
  have := effIdx_le t.length j
  omega

theorem length_dropWhile_le' (p : Char → Bool) (l : Str) :
    (l.dropWhile p).length ≤ l.length := by
  induction l with
  | nil => simp [List.dropWhile]
  | cons c rest ih =>
    by_cases h : p c
    · simp only [List.dropWhile, h]
      exact Nat.le_succ_of_le ih
    · simp [List.dropWhile, h]

theorem length_stripChars_le (l : Str) : (stripChars l).length ≤ l.length := by
  unfold stripChars
  calc ((l.dropWhile pyIsSpace).reverse.dropWhile pyIsSpace).reverse.length
      = ((l.dropWhile pyIsSpace).reverse.dropWhile pyIsSpace).length := by
        rw [List.length_reverse]
    _ ≤ (l.dropWhile pyIsSpace).reverse.length := length_dropWhile_le' _ _
    _ = (l.dropWhile pyIsSpace).length := by rw [List.length_reverse]
    _ ≤ l.length := length_dropWhile_le' _ _

theorem rfindSpaceFrom_bounds (t : Str) (a : Nat) :
    ∀ len k, rfindSpaceFrom t a len = some k → a ≤ k ∧ k < a + len := by
  intro len
  induction len with
  | zero => intro k h; simp [rfindSpaceFrom] at h
  | succ m ih =>
    intro k h
    unfold rfindSpaceFrom at h
    split at h
    · cases h; omega
    · have := ih k h; omega

theorem rfindSpace_cases (t : Str) (i j : Int) :
    rfindSpace t i j = -1 ∨
      (0 ≤ rfindSpace t i j ∧
        (effIdx t.length i : Int) ≤ rfindSpace t i j ∧
        rfindSpace t i j < (effIdx t.length j : Int)) := by
  cases h : rfindSpaceFrom t (effIdx t.length i) (effIdx t.length j - effIdx t.length i) with
  | none => left; simp [rfindSpace, h]
  | some k =>
    right
    have := rfindSpaceFrom_bounds t (effIdx t.length i) _ k h
    simp [rfindSpace, h]
    omega

theorem rfindSpace_of_empty (t : Str) (i j : Int)
    (h : effIdx t.length j ≤ effIdx t.length i) : rfindSpace t i j = -1 := by
  have hz : effIdx t.length j - effIdx t.length i = 0 := by omega
  simp [rfindSpace, hz, rfindSpaceFrom]

theorem loop_2_2_abcde_step (fuel chunk_index : Nat) (acc : List Chunk) :
    createChunksLoop ⟨2, 2⟩ ("abcde").data [] (fuel + 1) 0 chunk_index acc
      = createChunksLoop ⟨2, 2⟩ ("abcde").data [] fuel 0 (chunk_index + 1)
          (acc ++ [⟨("ab").data, [], chunk_index⟩]) := rfl

theorem loop_2_2_abcde_never_finishes :
    ∀ (fuel chunk_index : Nat) (acc : List Chunk),
      (createChunksLoop ⟨2, 2⟩ ("abcde").data [] fuel 0 chunk_index acc).2 = false := by
  intro fuel
  induction fuel with
  | zero => intro idx acc; rfl
  | succ m ih =>
    intro idx acc
    rw [loop_2_2_abcde_step]
    exact ih (idx + 1) (acc ++ [⟨("ab").data, [], idx⟩])

/-! # Claim C1 -/

/-- C1, counterexample: the configuration `chunk_size = 500`,
`chunk_overlap = 500` has `chunk_overlap ≥ chunk_size`, yet
`TextProcessor.__init__` does not reject it with a validation error: the
constructor returns normally with both values stored, and no error result
exists. -/
theorem init_overlap_ge_size_not_rejected :
    500 ≤ 500 ∧ TextProcessor.init 500 500 = Except.ok ⟨500, 500⟩ ∧
      ¬ ∃ e, TextProcessor.init 500 500 = Except.error e := by
  refine ⟨le_refl _, rfl, ?_⟩
  rintro ⟨e, h⟩
  simp [TextProcessor.init] at h

/-- C1, amended: `TextProcessor.__init__` performs no validation at all:
for every configuration — in particular whenever `chunk_overlap ≥
chunk_size` — it stores both values unchanged and returns without error. -/
theorem init_never_rejects (chunk_size chunk_overlap : Nat) :
    TextProcessor.init chunk_size chunk_overlap
      = Except.ok ⟨chunk_size, chunk_overlap⟩ :=
  rfl

/-! # Claim C2 -/

/-- C2: the sliding-window loop of `create_chunks` has no forward-progress
guard.  With `chunk_size = 2`, `chunk_overlap = 2` and input `"abcde"`,
the recomputed window start is `end - overlap = 0` on every iteration
while `0 < len(text)` keeps holding, so `create_chunks` never returns:
for every fuel bound the loop is still running. -/
theorem create_chunks_2_2_abcde_diverges (fuel : Nat) :
    (TextProcessor.create_chunks ⟨2, 2⟩ ("abcde").data none fuel).2 = false := by
  have hclean : cleanText ("abcde").data = ("abcde").data := rfl
  have hlen : ¬ ((("abcde").data).length ≤ 2) := by decide
  simp only [TextProcessor.create_chunks, hclean, if_neg hlen, Option.getD_none]
  exact loop_2_2_abcde_never_finishes fuel 0 []

/-! # Claim C3 -/

/-- C3, counterexample: with a populated Index (one entry),
`force_reindex = True`, and an extractor returning no documents,
`index_documents` clears the Index before the empty-extractor check: it
still returns normally with a reported error, but the prior entry has been
destroyed, so the Index contents and count are not left unchanged. -/
theorem index_documents_force_empty_extractor_clears :
    OracleSystem.index_documents [⟨("doc_0").data, ("t").data, ("f").data, 0, []⟩]
        [] (fun _ => Except.ok []) true 0
      = some ([], IndexOutcome.noDocuments) ∧
    ([] : List IndexedEntry) ≠ [⟨("doc_0").data, ("t").data, ("f").data, 0, []⟩] := by
  exact ⟨rfl, by simp⟩

/-- C3, amended: when the extractor returns no documents,
`index_documents` always returns normally (no exception): with
`force_reindex = false` the Index is left unchanged (idempotent skip when
populated, reported error when empty), but with `force_reindex = true` the
Index has already been cleared before the check, so every prior entry is
destroyed and the run still ends with the reported error. -/
theorem index_documents_empty_extractor (entries : List IndexedEntry)
    (encode : List Str → Except Str (List Vec)) (force : Bool) (fuel : Nat) :
    OracleSystem.index_documents entries [] encode force fuel
      = some ((if force then [] else entries),
          (if 0 < VectorStore.count entries ∧ force = false then IndexOutcome.skipped
           else IndexOutcome.noDocuments)) := by
  by_cases h : 0 < VectorStore.count entries ∧ force = false
  · obtain ⟨h1, h2⟩ := h
    subst h2
    simp [OracleSystem.index_documents, h1]
  · simp [OracleSystem.index_documents, if_neg h, VectorStore.clear_collection]

/-- C3, witness for the amended theorem at a concrete input: a singleton
Index, `force_reindex = true`, empty extractor result. -/
theorem index_documents_empty_extractor_witness :
    OracleSystem.index_documents [⟨("doc_0").data, ("x").data, ("g").data, 1, []⟩]
        [] (fun _ => Except.error ("e").data) true 3
      = some ([], IndexOutcome.noDocuments) := by
  have h := index_documents_empty_extractor
    [⟨("doc_0").data, ("x").data, ("g").data, 1, []⟩]
    (fun _ => Except.error ("e").data) true 3
  simpa using h

/-! # Claim C4 -/

/-- C4, counterexample: with a failing Embedding Service,
`generate_embeddings_batch` catches the exception and returns `[]` — no
error reaches its caller — and `index_documents` then completes normally,
handing `add_documents` a non-empty chunk list paired with the empty
embedding list: the failure is silently absorbed, not surfaced. -/
theorem embedding_failure_not_surfaced :
    generate_embeddings_batch (fun _ => Except.error ("boom").data) [("hello").data] = [] ∧
    OracleSystem.index_documents [] [⟨("f").data, ("p").data, ("hello").data⟩]
        (fun _ => Except.error ("boom").data) false 0
      = some ([], IndexOutcome.completed
          [⟨("hello").data,
            [(("filename").data, ("f").data), (("path").data, ("p").data)], 0⟩] []) := by
  exact ⟨rfl, rfl⟩

/-- C4, amended: an Embedding Service failure during an indexing run is
caught inside `generate_embeddings_batch`, which returns the empty list
instead of propagating; `index_documents` then continues and passes the
full chunk list together with the empty embedding list to the Index's add
operation — no error is surfaced to the caller by the repository's code. -/
theorem embedding_failure_absorbed
    (entries : List IndexedEntry) (documents : List Document)
    (encode : List Str → Except Str (List Vec)) (force : Bool) (fuel : Nat)
    (chunks : List Chunk) (e : Str)
    (hskip : ¬ (0 < VectorStore.count entries ∧ force = false))
    (hdocs : documents ≠ [])
    (hchunks : (TextProcessor.mk 500 50).process_documents documents fuel = (chunks, true))
    (hfail : encode (chunks.map (fun c => c.text)) = Except.error e) :
    generate_embeddings_batch encode (chunks.map (fun c => c.text)) = [] ∧
    OracleSystem.index_documents entries documents encode force fuel
      = some (VectorStore.add_documents
                (if force then [] else entries) chunks [],
              IndexOutcome.completed chunks []) := by
  have habs : generate_embeddings_batch encode (chunks.map (fun c => c.text)) = [] := by
    simp [generate_embeddings_batch, hfail]
  refine ⟨habs, ?_⟩
  simp only [OracleSystem.index_documents, if_neg hskip, if_neg hdocs, hchunks, habs,
    VectorStore.clear_collection]

/-- C4, witness for the amended theorem at a concrete input: empty Index,
one short document, failing batch encoder. -/
theorem embedding_failure_absorbed_witness :
    generate_embeddings_batch (fun _ => Except.error ("err").data)
        ([(⟨("hi").data,
            [(("filename").data, ("a").data), (("path").data, ("b").data)], 0⟩ : Chunk)].map
          (fun c => c.text)) = [] ∧
    OracleSystem.index_documents [] [⟨("a").data, ("b").data, ("hi").data⟩]
        (fun _ => Except.error ("err").data) false 0
      = some (VectorStore.add_documents (if false then [] else [])
                [⟨("hi").data,
                  [(("filename").data, ("a").data), (("path").data, ("b").data)], 0⟩] [],
              IndexOutcome.completed
                [⟨("hi").data,
                  [(("filename").data, ("a").data), (("path").data, ("b").data)], 0⟩] []) := by
  exact embedding_failure_absorbed [] [⟨("a").data, ("b").data, ("hi").data⟩]
    (fun _ => Except.error ("err").data) false 0
    [⟨("hi").data, [(("filename").data, ("a").data), (("path").data, ("b").data)], 0⟩]
    (("err").data) (by simp [VectorStore.count]) (by simp) rfl rfl

/-! # Claim C5 -/

/-- C5: against an empty corpus (indexed-entry count 0), `query` returns
the fixed "not indexed" sentinel and invokes neither the Embedding Service
nor the Generation Service. -/
theorem query_empty_corpus
    (entries : List IndexedEntry) (encode : Str → Except Str Vec) (cq : CQOracle)
    (complete : Str → Except Str Str) (mkPrompt : Str → List RDoc → Str)
    (question : Str) (n_results : Nat) (show_sources : Bool)
    (h : VectorStore.count entries = 0) :
    OracleSystem.query entries encode cq complete mkPrompt question n_results show_sources
      = ⟨notIndexedMsg, 0, 0⟩ := by
  simp [OracleSystem.query, h]

/-- C5, witness: concrete stub services against an empty Index. -/
theorem query_empty_corpus_witness :
    OracleSystem.query [] (fun _ => Except.ok []) (fun _ _ => Except.ok ⟨[], [], none⟩)
        (fun _ => Except.ok []) (fun _ _ => []) (("q").data) 5 true
      = ⟨notIndexedMsg, 0, 0⟩ :=
  query_empty_corpus [] _ _ _ _ (("q").data) 5 true rfl

/-! # Claim C6 -/

/-- C6, counterexample: a failing Index query is not surfaced as a service
error — `search` catches the exception and returns `[]`, the very value it
returns for a genuinely empty backend result, so callers cannot tell a
service failure from "no relevant match". -/
theorem search_failure_reported_as_empty :
    VectorStore.search (fun _ _ => Except.error ("backend failure").data) [] 5 = [] ∧
    VectorStore.search (fun _ _ => Except.ok ⟨[], [], none⟩) [] 5 = [] := by
  exact ⟨rfl, rfl⟩

/-- C6, amended: `VectorStore.search` never raises: whenever the backend
query fails it absorbs the exception and returns the empty list — the same
sentinel as an empty retrieval — rather than surfacing a service error. -/
theorem search_absorbs_backend_failure (cq : CQOracle) (v : Vec) (n : Nat) (e : Str)
    (h : cq v n = Except.error e) : VectorStore.search cq v n = [] := by
  simp [VectorStore.search, h]

/-- C6, witness: a concrete failing backend. -/
theorem search_absorbs_backend_failure_witness :
    VectorStore.search (fun _ _ => Except.error ("boom").data) [] 3 = [] :=
  search_absorbs_backend_failure _ [] 3 (("boom").data) rfl

/-! # Claim C9 -/

theorem searchRowsAux_distances_none :
    ∀ (ts : List Str) (ms : List Meta) (rows : List RDoc),
      searchRowsAux ts ms none = some rows →
        rows.filterMap (fun d => d.distance) = [] := by
  intro ts
  induction ts with
  | nil =>
    intro ms rows h
    simp only [searchRowsAux, Option.some.injEq] at h
    subst h
    rfl
  | cons t ts ih =>
    intro ms rows h
    cases ms with
    | nil => simp [searchRowsAux] at h
    | cons m ms =>
      simp only [searchRowsAux, Option.map_eq_some'] at h
      obtain ⟨rs, hrs, hrw⟩ := h
      subst hrw
      simp [List.filterMap_cons, ih ms rs hrs]

theorem searchRowsAux_distances_some :
    ∀ (ts : List Str) (ms : List Meta) (ds : List ℚ) (rows : List RDoc),
      searchRowsAux ts ms (some ds) = some rows →
        rows.filterMap (fun d => d.distance) = ds.take ts.length := by
  intro ts
  induction ts with
  | nil =>
    intro ms ds rows h
    simp only [searchRowsAux, Option.some.injEq] at h
    subst h
    simp
  | cons t ts ih =>
    intro ms ds rows h
    cases ms with
    | nil => simp [searchRowsAux] at h
    | cons m ms =>
      cases ds with
      | nil => simp [searchRowsAux] at h
      | cons d ds =>
        simp only [searchRowsAux, Option.map_eq_some'] at h
        obtain ⟨rs, hrs, hrw⟩ := h
        subst hrw
        simp [List.filterMap_cons, ih ms ds rs hrs]

/-- C9: retrieval ordering invariant.  `VectorStore.search` preserves the
backend's returned order, mapping row `i` to distance `distances[0][i]`:
under the Index contract assumed by the design (the backend returns its
hits closest-first, i.e. with non-decreasing distances), the distances of
the returned result sequence are monotonically non-decreasing, whatever
the query and however the backend call turns out. -/
theorem search_distances_sorted (cq : CQOracle) (v : Vec) (n : Nat)
    (hback : ∀ r ds0 rest, cq v n = Except.ok r →
      r.distances = some (ds0 :: rest) → List.Sorted (· ≤ ·) ds0) :
    List.Sorted (· ≤ ·)
      ((VectorStore.search cq v n).filterMap (fun d => d.distance)) := by
  cases hcq : cq v n with
  | error e => simp [VectorStore.search, hcq]
  | ok r =>
    cases hdocs : r.documents with
    | nil => simp [VectorStore.search, hcq, hdocs]
    | cons d0 drest =>
      cases hst : searchTop d0 r.metadatas r.distances with
      | none => simp [VectorStore.search, hcq, hdocs, hst]
      | some rows =>
        have hsearch : VectorStore.search cq v n = rows := by
          simp [VectorStore.search, hcq, hdocs, hst]
        rw [hsearch]
        cases d0 with
        | nil =>
          simp only [searchTop, Option.some.injEq] at hst
          subst hst
          simp
        | cons t ts =>
          cases hm : r.metadatas with
          | nil => rw [hm] at hst; simp [searchTop] at hst
          | cons m0 ms =>
            rw [hm] at hst
            cases hdist : r.distances with
            | none =>
              rw [hdist] at hst
              simp only [searchTop] at hst
              rw [searchRowsAux_distances_none (t :: ts) m0 rows hst]
              simp
            | some dss =>
              rw [hdist] at hst
              cases dss with
              | nil => simp [searchTop] at hst
              | cons ds0 rest =>
                simp only [searchTop] at hst
                have hsorted := hback r ds0 rest hcq hdist
                rw [searchRowsAux_distances_some (t :: ts) m0 ds0 rows hst]
                exact List.Pairwise.sublist (List.take_sublist _ _) hsorted

/-- C9, witness: a concrete backend returning two hits with sorted
distances. -/
theorem search_distances_sorted_witness :
    List.Sorted (· ≤ ·)
      ((VectorStore.search
          (fun _ _ => Except.ok
            ⟨[[("a").data, ("b").data]], [[[], []]], some [[(1 : ℚ)/2, 3/4]]⟩)
          [] 2).filterMap (fun d => d.distance)) := by
  apply search_distances_sorted
  intro r ds0 rest h1 h2
  cases h1
  simp only [Option.some.injEq, List.cons.injEq] at h2
  obtain ⟨h3, _⟩ := h2
  subst h3
  norm_num

/-! # Claim C8 -/

theorem filter_notMem_cons (f : Str) (seen : List Str) (l : List Str) :
    l.filter (fun g => g ∉ f :: seen)
      = (l.filter (fun g => g ∉ seen)).filter (fun g => g ≠ f) := by
  induction l with
  | nil => rfl
  | cons a l ih =>
    by_cases h1 : a = f
    · subst h1
      by_cases h2 : a ∈ seen <;>
        simp [List.filter_cons, h2, List.mem_cons, ih]
    · by_cases h2 : a ∈ seen <;>
        simp [List.filter_cons, h1, h2, List.mem_cons, ih]

theorem filter_notMem_nil (l : List Str) :
    l.filter (fun g => g ∉ ([] : List Str)) = l := by
  induction l with
  | nil => rfl
  | cons a l ih => simp [List.filter_cons, ih]

theorem dedupFirstSeen_nil : dedupFirstSeen [] = [] := by
  rw [dedupFirstSeen]

theorem dedupFirstSeen_cons (f : Str) (fs : List Str) :
    dedupFirstSeen (f :: fs) = f :: dedupFirstSeen (fs.filter (fun g => g ≠ f)) := by
  rw [dedupFirstSeen]

theorem mem_dedupFirstSeen (l : List Str) (g : Str) :
    g ∈ dedupFirstSeen l → g ∈ l := by
  induction l using dedupFirstSeen.induct with
  | case1 => simp [dedupFirstSeen_nil]
  | case2 f fs ih =>
    rw [dedupFirstSeen_cons]
    intro h
    rcases List.mem_cons.mp h with h | h
    · exact h ▸ List.mem_cons_self _ _
    · exact List.mem_cons_of_mem _ (List.mem_of_mem_filter (ih h))

theorem dedupFirstSeen_nodup (l : List Str) : (dedupFirstSeen l).Nodup := by
  induction l using dedupFirstSeen.induct with
  | case1 => simp [dedupFirstSeen_nil]
  | case2 f fs ih =>
    rw [dedupFirstSeen_cons]
    refine List.Nodup.cons (fun hmem => ?_) ih
    have := mem_dedupFirstSeen _ _ hmem
    simp at this

theorem sourcesLoop_eq_render :
    ∀ (docs : List RDoc) (seen : List Str),
      sourcesLoop docs seen
        = renderSources (dedupFirstSeen
            ((docs.map queryFilename).filter (fun g => g ∉ seen))) := by
  intro docs
  induction docs with
  | nil => intro seen; simp [sourcesLoop, renderSources, dedupFirstSeen_nil]
  | cons d ds ih =>
    intro seen
    by_cases h : queryFilename d ∈ seen
    · rw [show sourcesLoop (d :: ds) seen = sourcesLoop ds seen from by
        simp only [sourcesLoop, if_pos h]]
      rw [ih seen]
      congr 2
      simp [List.filter_cons, h]
    · rw [show sourcesLoop (d :: ds) seen
          = (("  - ").data ++ queryFilename d ++ ("\n").data)
              ++ sourcesLoop ds (queryFilename d :: seen) from by
        simp only [sourcesLoop, if_neg h]]
      rw [ih (queryFilename d :: seen)]
      rw [show (List.map queryFilename (d :: ds)).filter (fun g => g ∉ seen)
          = queryFilename d :: (ds.map queryFilename).filter (fun g => g ∉ seen) from by
        simp [List.filter_cons, h]]
      rw [dedupFirstSeen_cons, filter_notMem_cons]
      simp [renderSources]

/-- C8: when sources are requested and generation succeeds, the answer is
the generated (stripped) text followed by the sources block, whose
filename list is the first-seen deduplication of the retrieval results'
filenames — no duplicates (`Nodup`), first-seen order. -/
theorem query_sources_dedup_first_seen
    (entries : List IndexedEntry) (encode : Str → Except Str Vec) (cq : CQOracle)
    (complete : Str → Except Str Str) (mkPrompt : Str → List RDoc → Str)
    (question : Str) (n_results : Nat) (docs : List RDoc) (t : Str)
    (hcount : ¬ (VectorStore.count entries = 0))
    (hdocs : VectorStore.search cq (generate_embedding encode question) n_results = docs)
    (hne : ¬ (docs = []))
    (hgen : complete (mkPrompt question docs) = Except.ok t) :
    (OracleSystem.query entries encode cq complete mkPrompt question n_results true).answer
      = stripChars t ++ sourcesHeader
          ++ renderSources (dedupFirstSeen (docs.map queryFilename)) ∧
    (dedupFirstSeen (docs.map queryFilename)).Nodup := by
  constructor
  · simp only [OracleSystem.query, if_neg hcount, hdocs, if_neg hne, if_pos trivial,
      llmGenerate, hgen, if_true]
    rw [sourcesLoop_eq_render docs [], filter_notMem_nil]
  · exact dedupFirstSeen_nodup _

/-- C8, witness: three retrieved chunks with filenames `a.pdf`, `a.pdf`,
`b.pdf`; the appended sources list is exactly `a.pdf` then `b.pdf`. -/
theorem query_sources_dedup_first_seen_witness :
    (OracleSystem.query [⟨("doc_0").data, ("x").data, ("a.pdf").data, 0, []⟩]
        (fun _ => Except.ok [])
        (fun _ _ => Except.ok
          ⟨[[("t1").data, ("t2").data, ("t3").data]],
           [[[(("filename").data, ("a.pdf").data)],
             [(("filename").data, ("a.pdf").data)],
             [(("filename").data, ("b.pdf").data)]]],
           none⟩)
        (fun _ => Except.ok ("ans").data) (fun _ _ => []) (("q").data) 3 true).answer
      = ("ans").data ++ sourcesHeader ++ ("  - a.pdf\n  - b.pdf\n").data ∧
    (dedupFirstSeen [("a.pdf").data, ("a.pdf").data, ("b.pdf").data]).Nodup := by
  have h := query_sources_dedup_first_seen
    [⟨("doc_0").data, ("x").data, ("a.pdf").data, 0, []⟩]
    (fun _ => Except.ok [])
    (fun _ _ => Except.ok
      ⟨[[("t1").data, ("t2").data, ("t3").data]],
       [[[(("filename").data, ("a.pdf").data)],
         [(("filename").data, ("a.pdf").data)],
         [(("filename").data, ("b.pdf").data)]]],
       none⟩)
    (fun _ => Except.ok ("ans").data) (fun _ _ => []) (("q").data) 3
    [⟨("t1").data, [(("filename").data, ("a.pdf").data)], none⟩,
     ⟨("t2").data, [(("filename").data, ("a.pdf").data)], none⟩,
     ⟨("t3").data, [(("filename").data, ("b.pdf").data)], none⟩]
    (("ans").data) (by decide) rfl (by decide) rfl
  obtain ⟨h1, h2⟩ := h
  constructor
  · rw [h1]
    congr 1
    simp only [List.map_cons, List.map_nil]
    rw [show queryFilename ⟨("t1").data, [(("filename").data, ("a.pdf").data)], none⟩
        = ("a.pdf").data from rfl]
    rw [show queryFilename ⟨("t2").data, [(("filename").data, ("a.pdf").data)], none⟩
        = ("a.pdf").data from rfl]
    rw [show queryFilename ⟨("t3").data, [(("filename").data, ("b.pdf").data)], none⟩
        = ("b.pdf").data from rfl]
    rw [dedupFirstSeen_cons]
    rw [show ([("a.pdf").data, ("b.pdf").data].filter (fun g => g ≠ ("a.pdf").data))
        = [("b.pdf").data] from by decide]
    rw [dedupFirstSeen_cons]
    rw [show (([] : List Str).filter (fun g => g ≠ ("b.pdf").data)) = [] from rfl]
    rw [dedupFirstSeen_nil]
    rfl
  · simpa using h2

/-! # Claim C7 -/

theorem length_pyJoin_le (sep : Str) :
    ∀ l : List Str, (pyJoin sep l).length ≤ (l.map (fun s => s.length + sep.length)).sum := by
  intro l
  induction l with
  | nil => simp [pyJoin]
  | cons x xs ih =>
    cases xs with
    | nil => simp [pyJoin]
    | cons y ys =>
      simp only [pyJoin, List.length_append, List.map_cons, List.sum_cons] at *
      omega

theorem length_truncateCtx_le (s : Str) :
    (truncateCtx s).length ≤ min s.length 2500 + 3 := by
  unfold truncateCtx
  split
  · have h3 : (("...").data).length = 3 := rfl
    simp only [List.length_append, List.length_take, h3]
    omega
  · omega

theorem length_contextPart_le (g : Str × List Str) :
    (contextPart g).length + 2
      ≤ min (pyJoin ("\n\n").data g.2).length 2500 + g.1.length + 14 := by
  unfold contextPart
  have h1 : (("=== ").data).length = 4 := rfl
  have h2 : ((" ===\n").data).length = 5 := rfl
  have h3 := length_truncateCtx_le (pyJoin ("\n\n").data g.2)
  have hnn : (("\n\n").data : Str) = ['\n', '\n'] := rfl
  rw [hnn] at h3 ⊢
  simp only [List.length_append, h1, h2]
  omega

/-- C7, counterexample: the claimed bound `total context length ≤ sum over
files of min(group length, budget)` fails — the assembled context also
contains the `=== filename ===` headers (and, when truncation fires, a
3-character ellipsis): one result of 1 character from file `f` yields a
context of 11 characters against a claimed bound of 1.  Moreover
`LocalLLM.create_prompt_with_context` (also cited by the claim) does not
truncate at all: a single 2501-character chunk produces a context longer
than budget + ellipsis (2503). -/
theorem context_budget_bound_violated :
    ¬ ((gpt4all_context [⟨("t").data, [(("filename").data, ("f").data)], none⟩]).length
        ≤ ((groupByFile [⟨("t").data, [(("filename").data, ("f").data)], none⟩]).map
            (fun g => min (pyJoin ("\n\n").data g.2).length 2500)).sum) ∧
    2503 < (localllm_context
        [⟨List.replicate 2501 'x', [(("filename").data, ("f").data)], none⟩]).length := by
  constructor
  · decide
  · have hctx : localllm_context
        [⟨List.replicate 2501 'x', [(("filename").data, ("f").data)], none⟩]
        = ("[Fonte ").data ++ ((toString 1 : String)).data ++ (": ").data ++ ("f").data
            ++ ("]\n").data ++ List.replicate 2501 'x' ++ ("\n").data := rfl
    rw [hctx]
    have h1 : (("[Fonte ").data).length = 7 := rfl
    have h2 : (((toString 1 : String)).data).length = 1 := rfl
    have h3 : ((": ").data).length = 2 := rfl
    have h4 : (("f").data).length = 1 := rfl
    have h5 : (("]\n").data).length = 2 := rfl
    have h6 : (("\n").data).length = 1 := rfl
    simp only [List.length_append, List.length_replicate, h1, h2, h3, h4, h5, h6]
    omega

/-- C7, amended: only `GPT4AllLLM.create_prompt_with_context` groups
retrieval results by filename and truncates each group's concatenated text
to the 2500-character budget plus a 3-character ellipsis
(`LocalLLM.create_prompt_with_context` emits each result un-grouped and
untruncated); the total assembled context length is bounded by the sum
over files of `min(group length, 2500)` plus per-file overhead for the
ellipsis, the `=== filename ===` header and the blank-line separators
(`filename length + 14` per file). -/
theorem gpt4all_context_length_bound (context_documents : List RDoc) :
    (gpt4all_context context_documents).length
      ≤ ((groupByFile context_documents).map
          (fun g => min (pyJoin ("\n\n").data g.2).length 2500 + g.1.length + 14)).sum := by
  unfold gpt4all_context
  have h := length_pyJoin_le ("\n\n").data ((groupByFile context_documents).map contextPart)
  rw [List.map_map] at h
  refine le_trans h (List.sum_le_sum ?_)
  intro g _
  have hsep : ((("\n\n").data) : Str).length = 2 := rfl
  have hcp := length_contextPart_le g
  have hnn : (("\n\n").data : Str) = ['\n', '\n'] := rfl
  rw [hnn] at hcp ⊢
  simp only [Function.comp_apply, List.length_cons, List.length_nil]
  omega

/-! # Claim C10 -/

theorem effIdx_nonneg_eq (n : Nat) (i : Int) (h : 0 ≤ i) :
    (effIdx n i : Int) = min i n := by
  unfold effIdx
  rw [if_neg (not_lt.mpr h)]
  omega

theorem effIdx_neg_eq (n : Nat) (i : Int) (h : i < 0) :
    (effIdx n i : Int) = min (max (i + n) 0) n := by
  unfold effIdx
  rw [if_pos h]
  omega

/-- Under the amended hypotheses (`0 < chunk_size`,
`chunk_overlap < chunk_size`, text longer than `chunk_size`) and the loop
invariant `-(overlap+1) ≤ start < len`, the window end of one iteration is
at least `-1` and the underlying slice has at most `chunk_size`
characters. -/
theorem chunkEnd_bounds (tp : TextProcessor) (t : Str) (start : Int)
    (hov : tp.chunk_overlap < tp.chunk_size)
    (hn : tp.chunk_size < t.length)
    (hstart : -((tp.chunk_overlap : Int) + 1) ≤ start)
    (hlt : start < (t.length : Int)) :
    -1 ≤ chunkEnd tp t start ∧
    effIdx t.length (chunkEnd tp t start) - effIdx t.length start ≤ tp.chunk_size := by
  have he0nn : (0 : Int) ≤ start + tp.chunk_size := by omega
  have hee0 := effIdx_nonneg_eq t.length (start + tp.chunk_size) he0nn
  have heis : (effIdx t.length start : Int)
      = if 0 ≤ start then min start (t.length : Int)
        else min (max (start + t.length) 0) (t.length : Int) := by
    by_cases hs : 0 ≤ start
    · rw [if_pos hs]; exact effIdx_nonneg_eq t.length start hs
    · rw [if_neg hs]; exact effIdx_neg_eq t.length start (by omega)
  unfold chunkEnd
  by_cases hB : start + (tp.chunk_size : Int) < (t.length : Int)
  · rw [if_pos hB]
    by_cases hA : rfindSpace t start (start + tp.chunk_size) > start
    · rw [if_pos hA]
      rcases rfindSpace_cases t start (start + tp.chunk_size) with hm1 | ⟨hge, hlo, hhi⟩
      · rw [hm1]
        rw [hm1] at hA
        have he1 := effIdx_neg_eq t.length (-1) (by omega)
        constructor
        · omega
        · split at heis <;> omega
      · have hel := effIdx_nonneg_eq t.length _ hge
        constructor
        · omega
        · rw [hee0] at hhi
          split at heis <;> omega
    · rw [if_neg hA]
      constructor
      · omega
      · split at heis <;> omega
  · rw [if_neg hB]
    constructor
    · omega
    · split at heis <;> omega

theorem chunkText_length_le (tp : TextProcessor) (t : Str) (start : Int)
    (hov : tp.chunk_overlap < tp.chunk_size)
    (hn : tp.chunk_size < t.length)
    (hstart : -((tp.chunk_overlap : Int) + 1) ≤ start)
    (hlt : start < (t.length : Int)) :
    (chunkText tp t start).length ≤ tp.chunk_size := by
  have h := (chunkEnd_bounds tp t start hov hn hstart hlt).2
  calc (chunkText tp t start).length
      ≤ (pySlice t start (chunkEnd tp t start)).length := length_stripChars_le _
    _ = effIdx t.length (chunkEnd tp t start) - effIdx t.length start :=
        length_pySlice _ _ _
    _ ≤ tp.chunk_size := h

theorem nextStart_lower_bound (tp : TextProcessor) (t : Str) (start : Int)
    (hov : tp.chunk_overlap < tp.chunk_size)
    (hn : tp.chunk_size < t.length)
    (hstart : -((tp.chunk_overlap : Int) + 1) ≤ start)
    (hlt : start < (t.length : Int)) :
    -((tp.chunk_overlap : Int) + 1) ≤ nextStart tp t start := by
  have h := (chunkEnd_bounds tp t start hov hn hstart hlt).1
  unfold nextStart
  omega

theorem createChunksLoop_chunk_bound (tp : TextProcessor) (t : Str) (md : Meta)
    (hov : tp.chunk_overlap < tp.chunk_size) (hn : tp.chunk_size < t.length) :
    ∀ (fuel : Nat) (start : Int) (idx : Nat) (acc : List Chunk),
      -((tp.chunk_overlap : Int) + 1) ≤ start →
      (∀ c ∈ acc, c.text.length ≤ tp.chunk_size) →
      ∀ c ∈ (createChunksLoop tp t md fuel start idx acc).1,
        c.text.length ≤ tp.chunk_size := by
  intro fuel
  induction fuel with
  | zero => intro start idx acc _ hacc c hc; exact hacc c hc
  | succ m ih =>
    intro start idx acc hstart hacc c hc
    rw [createChunksLoop] at hc
    by_cases h1 : start < (t.length : Int)
    · rw [if_pos h1] at hc
      have haccStep : ∀ c ∈ (if chunkText tp t start = [] then acc
          else acc ++ [⟨chunkText tp t start, md, idx⟩]), c.text.length ≤ tp.chunk_size := by
        intro c hc
        by_cases hct : chunkText tp t start = []
        · rw [if_pos hct] at hc; exact hacc c hc
        · rw [if_neg hct] at hc
          rcases List.mem_append.mp hc with hmem | hmem
          · exact hacc c hmem
          · have hceq : c = ⟨chunkText tp t start, md, idx⟩ := List.mem_singleton.mp hmem
            subst hceq
            exact chunkText_length_le tp t start hov hn hstart h1
      by_cases h2 : (t.length : Int) ≤ nextStart tp t start
      · rw [if_pos h2] at hc
        exact haccStep c hc
      · rw [if_neg h2] at hc
        exact ih (nextStart tp t start) _ _
          (nextStart_lower_bound tp t start hov hn hstart h1) haccStep c hc
    · rw [if_neg h1] at hc
      exact hacc c hc

/-- C10, counterexample: with `chunk_size = 2 > 0` and `chunk_overlap =
10`, on input `"abcdefghijklmnop"` the overlap step moves the window start
to `-8`; the snap-to-space adjustment then sets the window end to the
`rfind` result `-1` (which compares greater than the negative start), and
Python's negative-index slicing `text[-8:-1]` emits the 7-character chunk
`"ijklmno"` — longer than the configured `chunk_size` of 2. -/
theorem chunk_longer_than_chunk_size :
    0 < 2 ∧
    (⟨("ijklmno").data, [], 1⟩ : Chunk)
      ∈ (TextProcessor.create_chunks ⟨2, 10⟩ ("abcdefghijklmnop").data (some []) 2).1 ∧
    2 < (("ijklmno").data).length := by
  decide

/-- C10, amended: the chunk-size bound holds under the additional
hypothesis `chunk_overlap < chunk_size` (the configuration the design
declares valid): then the window start never drops below `-(overlap+1)`,
every slice the loop takes — snapped or not, with the start negative or
not — spans at most `chunk_size` characters, and hence every chunk emitted
by `create_chunks`, for any text, metadata and fuel, has text of length at
most `chunk_size`. -/
theorem create_chunks_chunk_size_bound (tp : TextProcessor) (text : Str)
    (metadata : Option Meta) (fuel : Nat)
    (_hcs : 0 < tp.chunk_size) (hov : tp.chunk_overlap < tp.chunk_size) :
    ∀ c ∈ (tp.create_chunks text metadata fuel).1, c.text.length ≤ tp.chunk_size := by
  intro c hc
  simp only [TextProcessor.create_chunks] at hc
  by_cases hlen : (cleanText text).length ≤ tp.chunk_size
  · rw [if_pos hlen] at hc
    have hceq : c = ⟨cleanText text, metadata.getD [], 0⟩ := List.mem_singleton.mp hc
    subst hceq
    exact hlen
  · rw [if_neg hlen] at hc
    exact createChunksLoop_chunk_bound tp (cleanText text) (metadata.getD []) hov
      (by omega) fuel 0 0 [] (by omega) (by simp) c hc

/-- C10, witness for the amended theorem: configuration `(2, 1)` on
`"abcde"`; the first emitted chunk `"ab"` respects the bound. -/
theorem create_chunks_chunk_size_bound_witness :
    (0 < 2 ∧ 1 < 2) ∧ (("ab").data).length ≤ 2 :=
  ⟨⟨by decide, by decide⟩,
    create_chunks_chunk_size_bound ⟨2, 1⟩ ("abcde").data none 5 (by decide) (by decide)
      ⟨("ab").data, [], 0⟩ (by decide)⟩

end Oraculo
